import Mathlib

/-!
Verification of the end-to-end-encryption subsystem of the Real-Time-Chat-App
repository: client-side key management (`KeyManager`), password-derived
encrypted local storage (`SecureStorage`), the secure socket client
(`SecureSocketClient`), the chat context's send path, and the server-side
message persistence operations (`database.ts`).

Modelling conventions:
- byte strings are `List Nat` with entries `< 256`;
- the Web Crypto primitives (AES-GCM, ECDH, HKDF, PBKDF2, CSPRNG) are not part
  of the repository's sources, so they are modelled from the spec as idealized
  primitives (see the doc comments on each);
- the repository's own code (Base64 conversion, key maps, vault state machine,
  queue handling, database record updates) is embedded faithfully, definition
  by definition.
-/

namespace Chat

/-! ## Base64

`arrayBufferToBase64` / `base64ToArrayBuffer` in the repository convert between
byte arrays and Base64 strings via the platform's `btoa` / `atob`.  We model
the standard Base64 encoding over byte lists (`List Nat`, entries `< 256`)
producing character lists with `'='` padding. -/

/-- The 64-character Base64 alphabet used by `btoa`/`atob`. -/
def b64chars : List Char :=
  ['A','B','C','D','E','F','G','H','I','J','K','L','M','N','O','P','Q','R','S',
   'T','U','V','W','X','Y','Z','a','b','c','d','e','f','g','h','i','j','k','l',
   'm','n','o','p','q','r','s','t','u','v','w','x','y','z','0','1','2','3','4',
   '5','6','7','8','9','+','/']

/-- Encode a 6-bit group as a Base64 character. -/
def encodeC (n : Nat) : Char := b64chars.getD n 'A'

/-- Decode a Base64 character back to its 6-bit group. -/
def decodeC (c : Char) : Nat := (b64chars.indexOf c)

/-- Base64-encode a byte list, three bytes at a time, with `'='` padding
(the behaviour of `btoa` on the binary string built by
`arrayBufferToBase64`). -/
def btoa : List Nat → List Char
  | [] => []
  | [a] => [encodeC (a / 4), encodeC (a % 4 * 16), '=', '=']
  | [a, b] => [encodeC (a / 4), encodeC (a % 4 * 16 + b / 16),
               encodeC (b % 16 * 4), '=']
  | a :: b :: c :: rest =>
      encodeC (a / 4) :: encodeC (a % 4 * 16 + b / 16) ::
      encodeC (b % 16 * 4 + c / 64) :: encodeC (c % 64) :: btoa rest

/-- Base64-decode a character list, four characters at a time, honouring
`'='` padding (the behaviour of `atob` inside `base64ToArrayBuffer`). -/
def atob : List Char → List Nat
  | c1 :: c2 :: c3 :: c4 :: rest =>
      if c3 = '=' then
        [decodeC c1 * 4 + decodeC c2 / 16]
      else if c4 = '=' then
        [decodeC c1 * 4 + decodeC c2 / 16,
         decodeC c2 % 16 * 16 + decodeC c3 / 4]
      else
        (decodeC c1 * 4 + decodeC c2 / 16) ::
        (decodeC c2 % 16 * 16 + decodeC c3 / 4) ::
        (decodeC c3 % 4 * 64 + decodeC c4) :: atob rest
  | _ => []

/-! ## Idealized cryptographic primitives

The Web Crypto API (`crypto.subtle`, `crypto.getRandomValues`) is a platform
library, not part of the repository's sources; these definitions model it
from the spec. -/

/-- Errors raised by the crypto layer (`e2e-encryption`): thrown `Error`s with
the messages "Decryption failed - message may have been tampered with",
"No secure channel established with recipient/sender",
"Key pair not initialized". -/
inductive CryptoError where
  | DecryptionFailure
  | ChannelNotEstablished
  | KeyPairNotInitialized
  deriving DecidableEq, Repr

/-- Modelled from the spec: the AES-256-GCM authentication tag.  The spec's
glossary describes AEAD as "authenticated encryption providing both
confidentiality and tamper detection via an authentication tag"; the ideal
tag authenticates the key, the IV and the ciphertext body exactly, so an
authentication check succeeds precisely on the genuine transcript. -/
structure AuthTag where
  key : Nat
  iv : List Nat
  body : List Nat
  deriving DecidableEq, Repr

/-- Modelled from the spec: ideal AEAD encryption (`crypto.subtle.encrypt`
with AES-GCM).  Confidentiality is abstracted away (the body carries the
plaintext bytes); integrity is ideal via `AuthTag`. -/
def aeadEncrypt (key : Nat) (iv pt : List Nat) : List Nat × AuthTag :=
  (pt, ⟨key, iv, pt⟩)

/-- Modelled from the spec: ideal AEAD decryption (`crypto.subtle.decrypt`
with AES-GCM); "fails ... on authentication-tag mismatch (corruption or
tampering); never returns partial or best-effort plaintext". -/
def aeadDecrypt (key : Nat) (iv body : List Nat) (tag : AuthTag) :
    Option (List Nat) :=
  if tag = ⟨key, iv, body⟩ then some body else none

/-- Little-endian byte encoding of a natural number into `k` bytes. -/
def natToBytes : Nat → Nat → List Nat
  | 0, _ => []
  | k + 1, s => s % 256 :: natToBytes k (s / 256)

/-- Modelled from the spec: the cryptographically secure random source
(`crypto.getRandomValues`).  The spec idealizes it as never repeating a
96-bit nonce; the model draws from a counter state, so successive draws are
distinct byte strings while the counter stays below `256 ^ 12`. -/
def randomBytes (k rs : Nat) : List Nat × Nat := (natToBytes k rs, rs + 1)

/-- Flip bit `j` of the byte at index `i` (tampering with a wire byte). -/
def flipBit (l : List Nat) (i j : Nat) : List Nat :=
  l.set i ((l.getD i 0) ^^^ (2 ^ j))

/-! ## `encryptMessage` / `decryptMessage` (`e2e-encryption` module)

The repository's `EncryptedMessage` is `{ciphertext, iv}` with both fields
Base64 strings; the GCM authentication tag that `crypto.subtle` appends to
the ciphertext is carried separately as the symbolic `AuthTag`. -/

structure EncryptedMessage where
  ciphertext : List Char
  tag : AuthTag
  iv : List Char
  deriving DecidableEq, Repr

/-- `encryptMessage(plaintext, key)`: generates a random 12-byte IV, encrypts
with AES-GCM (128-bit tag), and Base64-encodes ciphertext and IV.  The
plaintext is its UTF-8 byte sequence (`TextEncoder` abstracted); `rs` is the
random-source state. -/
def encryptMessage (pt : List Nat) (key : Nat) (rs : Nat) :
    EncryptedMessage × Nat :=
  let (iv, rs') := randomBytes 12 rs
  let (body, tag) := aeadEncrypt key iv pt
  (⟨btoa body, tag, btoa iv⟩, rs')

/-- `decryptMessage(ciphertextBase64, ivBase64, key)`: Base64-decodes, then
decrypts; any failure is caught and rethrown as the single decryption-failure
error, never returning partial plaintext. -/
def decryptMessage (ct : List Char) (tag : AuthTag) (iv : List Char)
    (key : Nat) : Except CryptoError (List Nat) :=
  match aeadDecrypt key (atob iv) (atob ct) tag with
  | some pt => .ok pt
  | none => .error .DecryptionFailure

/-! ## `KeyManager` (`e2e-encryption` module) -/

/-- Modelled from the spec: ECDH key agreement plus HKDF
(`deriveSharedKey`), producing the per-peer AES key from the local private
key and the peer's public key. -/
def deriveSharedKey (priv pubPeer : Nat) : Nat := Nat.pair priv pubPeer

/-- `KeyManager`: holds the identity key pair and the `sharedKeys` map
(`Map<string, CryptoKey>`), modelled as an association list with
most-recent-entry-first lookup (so `Map.set` is cons). -/
structure KeyManager where
  keyPair : Option (Nat × Nat)
  sharedKeys : List (String × Nat)
  deriving DecidableEq, Repr

/-- `establishChannel(recipientId, theirPublicKeyBase64)`: requires the key
pair, derives the shared key and stores it under `recipientId`
(overwriting any previous entry). -/
def KeyManager.establishChannel (km : KeyManager) (recipientId : String)
    (theirPub : Nat) : Except CryptoError KeyManager :=
  match km.keyPair with
  | none => .error .KeyPairNotInitialized
  | some (priv, _) =>
      .ok { km with
            sharedKeys := (recipientId, deriveSharedKey priv theirPub)
              :: km.sharedKeys }

/-- `hasChannel(recipientId)`. -/
def KeyManager.hasChannel (km : KeyManager) (recipientId : String) : Bool :=
  (km.sharedKeys.lookup recipientId).isSome

/-- `removeChannel(recipientId)`. -/
def KeyManager.removeChannel (km : KeyManager) (recipientId : String) :
    KeyManager :=
  { km with sharedKeys := km.sharedKeys.filter (fun p => p.1 ≠ recipientId) }

/-- `encryptFor(recipientId, message)`: fails when no channel is
established, otherwise encrypts under the stored shared key. -/
def KeyManager.encryptFor (km : KeyManager) (recipientId : String)
    (message : List Nat) (rs : Nat) :
    Except CryptoError (EncryptedMessage × Nat) :=
  match km.sharedKeys.lookup recipientId with
  | none => .error .ChannelNotEstablished
  | some sharedKey => .ok (encryptMessage message sharedKey rs)

/-- `decryptFrom(senderId, ciphertext, iv)`: fails when no channel is
established, otherwise decrypts under the stored shared key. -/
def KeyManager.decryptFrom (km : KeyManager) (senderId : String)
    (ct : List Char) (tag : AuthTag) (iv : List Char) :
    Except CryptoError (List Nat) :=
  match km.sharedKeys.lookup senderId with
  | none => .error .ChannelNotEstablished
  | some sharedKey => decryptMessage ct tag iv sharedKey

/-- Sequential `encryptFor` calls on one channel, threading the
random-source state (the setting of the spec's nonce-uniqueness property). -/
def KeyManager.encryptForSeq (km : KeyManager) (peer : String) :
    List (List Nat) → Nat → Except CryptoError (List EncryptedMessage × Nat)
  | [], rs => .ok ([], rs)
  | p :: rest, rs =>
    match km.encryptFor peer p rs with
    | .error e => .error e
    | .ok (msg, rs') =>
      match KeyManager.encryptForSeq km peer rest rs' with
      | .error e => .error e
      | .ok (msgs, rs'') => .ok (msg :: msgs, rs'')

/-! ## `SecureStorage` (secure-storage module) -/

/-- Errors raised by the vault: "Invalid password", "SecureStorage not
initialized", "No stored credentials found. Please register first.", plus a
propagated decryption failure inside `getKeys`. -/
inductive VaultError where
  | WrongPassword
  | NotInitialized
  | NoStoredCredentials
  | DecryptFailed
  deriving DecidableEq, Repr

/-- A `localStorage` record: either a plaintext value (the Base64 salt) or an
encrypted `{iv, ciphertext}` JSON blob (serialization abstracted, tag
symbolic as in `EncryptedMessage`). -/
inductive VaultValue where
  | raw (bytes : List Nat)
  | encd (iv body : List Nat) (tag : AuthTag)
  deriving DecidableEq, Repr

/-- The byte content `base64ToArrayBuffer` would recover from the stored
string. -/
def VaultValue.bytes : VaultValue → List Nat
  | .raw b => b
  | .encd _ body _ => body

/-- The browser `localStorage`, as an association list keyed by the
namespaced storage keys.  `setItem` is cons (lookup sees the newest
binding, matching overwrite semantics). -/
abbrev Store := List (String × VaultValue)

def storeSet (store : Store) (k : String) (v : VaultValue) : Store :=
  (k, v) :: store

def storeGet (store : Store) (k : String) : Option VaultValue :=
  store.lookup k

/-- `${STORAGE_KEY_PREFIX}salt`. -/
def saltStorageKey : String := "secure_chat_salt"

/-- `${STORAGE_KEY_PREFIX}verification`. -/
def verificationStorageKey : String := "secure_chat_verification"

/-- `KEYS_STORAGE_NAME`. -/
def keysStorageName : String := "secure_chat_encryption_keys"

/-- Injective encoding of a byte list into a natural number (base-257 digits
`b + 1`); used to feed the salt into the idealized PBKDF2. -/
def encodeBytes : List Nat → Nat
  | [] => 0
  | b :: bs => (b + 1) + 257 * encodeBytes bs

/-- Modelled from the spec: PBKDF2-SHA256 with 600000 iterations
(`deriveKeyFromPassword`), idealized as an injective function of the
password and the salt; passwords are abstracted to naturals. -/
def deriveKeyFromPassword (password : Nat) (salt : List Nat) : Nat :=
  Nat.pair password (encodeBytes salt)

/-- `generateSalt()`: 32 random bytes. -/
def generateSalt (rs : Nat) : List Nat × Nat := randomBytes 32 rs

/-- UTF-8 bytes of a short ASCII string. -/
def strBytes (s : String) : List Nat := s.toList.map Char.toNat

/-- The `"verification_token"` plaintext stored encrypted for password
verification. -/
def verificationTokenBytes : List Nat := strBytes "verification_token"

/-- `encryptForStorage(data, key)`: fresh 12-byte IV, AES-GCM, JSON
`{iv, ciphertext}` (serialization abstracted into `VaultValue.encd`). -/
def encryptForStorage (data : List Nat) (key rs : Nat) : VaultValue × Nat :=
  let (iv, rs') := randomBytes 12 rs
  let (body, tag) := aeadEncrypt key iv data
  (.encd iv body tag, rs')

/-- `decryptFromStorage(encryptedJson, key)`: parse and decrypt; a plaintext
record does not parse as an encrypted blob. -/
def decryptFromStorage (v : VaultValue) (key : Nat) : Option (List Nat) :=
  match v with
  | .raw _ => none
  | .encd iv body tag => aeadDecrypt key iv body tag

/-- In-memory state of `SecureStorage`: `masterKey`, `salt`, `initialized`. -/
structure SecureStorage where
  masterKey : Option Nat
  salt : Option (List Nat)
  initialized : Bool
  deriving DecidableEq, Repr

/-- `initialize(password, isNewUser)`.  New user: generate and persist a
salt, derive the master key, store an encrypted verification marker.
Returning user: load the salt, derive the master key, set the unlocked
state, then — only if a verification record exists — try to decrypt it,
resetting `masterKey`/`initialized` and failing with the invalid-password
error when that decryption fails.  The result carries the thrown error (if
any) together with the final in-memory state, store and random state. -/
def SecureStorage.initializeStorage (st : SecureStorage) (password : Nat)
    (isNewUser : Bool) (store : Store) (rs : Nat) :
    Except VaultError Unit × SecureStorage × Store × Nat :=
  if isNewUser then
    let (saltBytes, rs1) := generateSalt rs
    let store1 := storeSet store saltStorageKey (.raw saltBytes)
    let mk := deriveKeyFromPassword password saltBytes
    let st1 : SecureStorage := ⟨some mk, some saltBytes, true⟩
    let (verif, rs2) := encryptForStorage verificationTokenBytes mk rs1
    (.ok (), st1, storeSet store1 verificationStorageKey verif, rs2)
  else
    match storeGet store saltStorageKey with
    | none => (.error .NoStoredCredentials, st, store, rs)
    | some saltVal =>
      let saltBytes := saltVal.bytes
      let mk := deriveKeyFromPassword password saltBytes
      let st1 : SecureStorage := ⟨some mk, some saltBytes, true⟩
      match storeGet store verificationStorageKey with
      | none => (.ok (), st1, store, rs)
      | some verif =>
        match decryptFromStorage verif mk with
        | some _ => (.ok (), st1, store, rs)
        | none =>
          (.error .WrongPassword, ⟨none, some saltBytes, false⟩, store, rs)

/-- `isInitialized()`. -/
def SecureStorage.isInitialized (st : SecureStorage) : Bool := st.initialized

/-- `storeKeys(keys)`: requires the unlocked state, encrypts the exported
key pair under the master key. -/
def SecureStorage.storeKeys (st : SecureStorage) (keys : List Nat)
    (store : Store) (rs : Nat) : Except VaultError Unit × Store × Nat :=
  match st.masterKey, st.initialized with
  | some masterK, true =>
    let (v, rs') := encryptForStorage keys masterK rs
    (.ok (), storeSet store keysStorageName v, rs')
  | _, _ => (.error .NotInitialized, store, rs)

/-- `getKeys()`: throws when not initialized; returns `none` when no record
is stored; otherwise decrypts the stored key pair (a decryption failure
propagates). -/
def SecureStorage.getKeys (st : SecureStorage) (store : Store) :
    Except VaultError (Option (List Nat)) :=
  match st.masterKey, st.initialized with
  | some masterK, true =>
    match storeGet store keysStorageName with
    | none => .ok none
    | some v =>
      match decryptFromStorage v masterK with
      | some d => .ok (some d)
      | none => .error .DecryptFailed
  | _, _ => .error .NotInitialized

/-- `lock()`: clears `masterKey` and `initialized` from memory.  The method
body performs no `localStorage` operation, which is why it does not take or
return a `Store`. -/
def SecureStorage.lock (st : SecureStorage) : SecureStorage :=
  { st with masterKey := none, initialized := false }

/-- `clear()`: removes every namespaced record and resets the in-memory
state. -/
def SecureStorage.clear (_st : SecureStorage) (store : Store) :
    SecureStorage × Store :=
  (⟨none, none, false⟩,
   store.filter (fun p => !(p.1.startsWith "secure_chat_")))

/-- `hasStoredData()`. -/
def hasStoredData (store : Store) : Bool :=
  (storeGet store saltStorageKey).isSome

/-! ## `SecureSocketClient` (secure socket module) -/

/-- `QueuedMessage {recipientId, chatId, ciphertext, iv, timestamp,
messageId}`; `messageId` is the client-generated UUID, modelled as a draw
from the random counter. -/
structure QueuedMessage where
  recipientId : String
  chatId : String
  ciphertext : List Char
  tag : AuthTag
  iv : List Char
  timestamp : Nat
  messageId : Nat
  deriving DecidableEq, Repr

/-- State of `SecureSocketClient`: the key manager, the outbound
`messageQueue`, the connection flag, and `wire`, the transcript of
`socket.emit("encrypted_message", …)` calls (the observable transmissions). -/
structure SocketClient where
  keyManager : KeyManager
  userId : String
  messageQueue : List QueuedMessage
  isConnected : Bool
  wire : List QueuedMessage
  deriving DecidableEq, Repr

/-- `sendMessage(recipientId, content, chatId)`: draw a UUID, encrypt via
the key manager (propagating its failure), then either emit immediately
(connected) or push onto the queue (disconnected). -/
def SocketClient.sendMessage (c : SocketClient) (recipientId : String)
    (content : List Nat) (chatId : String) (now rs : Nat) :
    Except CryptoError (Nat × SocketClient × Nat) :=
  let messageId := rs
  let rs1 := rs + 1
  match c.keyManager.encryptFor recipientId content rs1 with
  | .error e => .error e
  | .ok (enc, rs2) =>
    let msg : QueuedMessage :=
      ⟨recipientId, chatId, enc.ciphertext, enc.tag, enc.iv, now, messageId⟩
    if c.isConnected then
      .ok (messageId, { c with wire := c.wire ++ [msg] }, rs2)
    else
      .ok (messageId, { c with messageQueue := c.messageQueue ++ [msg] }, rs2)

/-- The `while` loop of `flushMessageQueue`: shift the queue head and emit
it, until the queue is empty. -/
def flushLoop : List QueuedMessage → List QueuedMessage →
    List QueuedMessage × List QueuedMessage
  | [], wire => ([], wire)
  | m :: rest, wire => flushLoop rest (wire ++ [m])

/-- `flushMessageQueue()`: runs the loop only while connected. -/
def SocketClient.flushMessageQueue (c : SocketClient) : SocketClient :=
  if c.isConnected then
    let (q', w') := flushLoop c.messageQueue c.wire
    { c with messageQueue := q', wire := w' }
  else c

/-- The `connect` socket event handler: set `isConnected` and flush the
queue. -/
def SocketClient.onConnect (c : SocketClient) : SocketClient :=
  SocketClient.flushMessageQueue { c with isConnected := true }

/-- A sequence of `sendMessage` calls `(recipientId, content, chatId)`,
threading client state and randomness. -/
def SocketClient.sendSeq (c : SocketClient) :
    List (String × List Nat × String) → Nat → Nat →
    Except CryptoError (SocketClient × Nat)
  | [], _, rs => .ok (c, rs)
  | (r, content, chat) :: rest, now, rs =>
    match c.sendMessage r content chat now rs with
    | .error e => .error e
    | .ok (_, c', rs') => SocketClient.sendSeq c' rest now rs'

/-- The queue entries a disconnected run of `sendSeq` appends, computed
directly (used to witness the existential in the queue-ordering theorem). -/
def buildMsgs (km : KeyManager) :
    List (String × List Nat × String) → Nat → Nat → List QueuedMessage
  | [], _, _ => []
  | (r, content, chat) :: rest, now, rs =>
    match km.sharedKeys.lookup r with
    | none => []
    | some k =>
      let enc := (encryptMessage content k (rs + 1)).1
      ⟨r, chat, enc.ciphertext, enc.tag, enc.iv, now, rs⟩
        :: buildMsgs km rest now (rs + 2)

/-! ## `ChatContext.sendMessage` (client context)

When no channel exists for the recipient, the context requests the peer's
public key and then awaits a fixed `setTimeout` of 1000 ms — not an
"establishment complete" signal.  Whether the `public_key_response` event is
delivered (and handled, establishing the channel) during that fixed delay
depends on the network, so it is an explicit parameter of the model. -/

/-- The `onPublicKey` handler: `establishChannel(event.userId,
event.publicKey)`; a failure inside the handler leaves the channel map
unchanged. -/
def ctxHandlePublicKey (c : SocketClient) (userId : String) (pub : Nat) :
    SocketClient :=
  match c.keyManager.establishChannel userId pub with
  | .ok km' => { c with keyManager := km' }
  | .error _ => c

/-- `ChatContext.sendMessage`: if no channel exists, emit
`request_public_key` and wait a fixed one second; if the response happened
to arrive during that window the handler has established the channel,
otherwise nothing has; in both cases fall through to
`socketClient.sendMessage`. -/
def ctxSendMessage (c : SocketClient) (recipientId : String)
    (content : List Nat) (chatId : String) (responseDuringWait : Option Nat)
    (now rs : Nat) : Except CryptoError (Nat × SocketClient × Nat) :=
  let c1 :=
    if c.keyManager.hasChannel recipientId then c
    else
      match responseDuringWait with
      | some pub => ctxHandlePublicKey c recipientId pub
      | none => c
  c1.sendMessage recipientId content chatId now rs

/-! ## Server-side message persistence (`server/database.ts`) -/

/-- A persisted message row (Prisma `Message` model, the fields the claims
touch). -/
structure DBMessage where
  id : String
  chatId : String
  senderId : String
  recipientId : Option String
  ciphertext : String
  iv : String
  status : String
  isEdited : Bool
  isDeleted : Bool
  deliveredAt : Option Nat
  readAt : Option Nat
  editedAt : Option Nat
  deletedAt : Option Nat
  deriving DecidableEq, Repr

abbrev DB := List DBMessage

/-- Errors thrown by `editMessage`/`deleteMessage`: "Message not found or
unauthorized" and "Cannot edit deleted message". -/
inductive DBError where
  | NotFoundOrUnauthorized
  | CannotEditDeleted
  deriving DecidableEq, Repr

/-- `updateMessageStatus(messageId, status, userId)`: `updateMany` on rows
matching `{id: messageId, recipientId: userId}` writing `status` (plus
`deliveredAt`/`readAt` timestamps) — a blind overwrite of `status`, with no
guard on the current value. -/
def updateMessageStatus (messageId statusVal userId : String) (now : Nat)
    (db : DB) : DB :=
  db.map fun m =>
    if m.id = messageId ∧ m.recipientId = some userId then
      if statusVal = "delivered" then
        { m with status := statusVal, deliveredAt := some now }
      else if statusVal = "read" then
        { m with status := statusVal, readAt := some now,
                 deliveredAt := some now }
      else { m with status := statusVal }
    else m

/-- `editMessage(messageId, senderId, newCiphertext, newIv)`: look the row
up; reject (no mutation) unless it exists, the caller is its sender and it
is not deleted; otherwise update ciphertext/IV and set the edited flag. -/
def editMessage (messageId senderId newCiphertext newIv : String)
    (now : Nat) (db : DB) : Except DBError Unit × DB :=
  match db.find? (fun m => m.id == messageId) with
  | none => (.error .NotFoundOrUnauthorized, db)
  | some m =>
    if m.senderId ≠ senderId then (.error .NotFoundOrUnauthorized, db)
    else if m.isDeleted then (.error .CannotEditDeleted, db)
    else
      (.ok (), db.map fun m' =>
        if m'.id = messageId then
          { m' with ciphertext := newCiphertext, iv := newIv,
                    isEdited := true, editedAt := some now }
        else m')

/-- `deleteMessage(messageId, senderId)`: look the row up; reject (no
mutation) unless it exists and the caller is its sender; otherwise set the
tombstone flag and clear the ciphertext fields. -/
def deleteMessage (messageId senderId : String) (now : Nat) (db : DB) :
    Except DBError Unit × DB :=
  match db.find? (fun m => m.id == messageId) with
  | none => (.error .NotFoundOrUnauthorized, db)
  | some m =>
    if m.senderId ≠ senderId then (.error .NotFoundOrUnauthorized, db)
    else
      (.ok (), db.map fun m' =>
        if m'.id = messageId then
          { m' with isDeleted := true, deletedAt := some now,
                    ciphertext := "", iv := "" }
        else m')

/-! ## Helper lemmas -/

theorem decodeC_encodeC : ∀ n < 64, decodeC (encodeC n) = n := by decide

theorem encodeC_ne_pad : ∀ n < 64, encodeC n ≠ '=' := by decide

theorem groupDiv (k x y : Nat) (hk : 0 < k) (h : y < k) :
    (x * k + y) / k = x := by
  rw [Nat.mul_comm, Nat.mul_add_div hk, Nat.div_eq_of_lt h, Nat.add_zero]

theorem groupMod (k x y : Nat) (h : y < k) : (x * k + y) % k = y := by
  rw [Nat.mul_comm, Nat.mul_add_mod, Nat.mod_eq_of_lt h]

/-- Base64 decoding is a left inverse of encoding on byte lists. -/
theorem atob_btoa : ∀ bs : List Nat, (∀ b ∈ bs, b < 256) → atob (btoa bs) = bs
  | [], _ => rfl
  | [a], h => by
    have ha : a < 256 := h a (by simp)
    have e1 := decodeC_encodeC (a / 4) (by omega)
    have e2 := decodeC_encodeC (a % 4 * 16) (by omega)
    simp only [btoa, atob, e1, e2, if_pos, List.cons.injEq, and_true]
    rw [groupDiv 16 (a % 4) 0 (by omega) (by omega) |>.symm] at *
    omega
  | [a, b], h => by
    have ha : a < 256 := h a (by simp)
    have hb : b < 256 := h b (by simp)
    have e1 := decodeC_encodeC (a / 4) (by omega)
    have e2 := decodeC_encodeC (a % 4 * 16 + b / 16) (by omega)
    have e3 := decodeC_encodeC (b % 16 * 4) (by omega)
    have d2 : (a % 4 * 16 + b / 16) / 16 = a % 4 :=
      groupDiv 16 (a % 4) (b / 16) (by omega) (by omega)
    have m2 : (a % 4 * 16 + b / 16) % 16 = b / 16 :=
      groupMod 16 (a % 4) (b / 16) (by omega)
    have d3 : b % 16 * 4 / 4 = b % 16 := Nat.mul_div_cancel _ (by omega)
    simp only [btoa, atob, e1, e2, e3,
      if_neg (encodeC_ne_pad (b % 16 * 4) (by omega)),
      if_pos, d2, m2, d3, List.cons.injEq, and_true]
    omega
  | a :: b :: c :: rest, h => by
    have ha : a < 256 := h a (by simp)
    have hb : b < 256 := h b (by simp)
    have hc : c < 256 := h c (by simp)
    have ih := atob_btoa rest (fun x hx => h x (by simp [hx]))
    have e1 := decodeC_encodeC (a / 4) (by omega)
    have e2 := decodeC_encodeC (a % 4 * 16 + b / 16) (by omega)
    have e3 := decodeC_encodeC (b % 16 * 4 + c / 64) (by omega)
    have e4 := decodeC_encodeC (c % 64) (by omega)
    have d2 : (a % 4 * 16 + b / 16) / 16 = a % 4 :=
      groupDiv 16 (a % 4) (b / 16) (by omega) (by omega)
    have m2 : (a % 4 * 16 + b / 16) % 16 = b / 16 :=
      groupMod 16 (a % 4) (b / 16) (by omega)
    have d3 : (b % 16 * 4 + c / 64) / 4 = b % 16 :=
      groupDiv 4 (b % 16) (c / 64) (by omega) (by omega)
    have m3 : (b % 16 * 4 + c / 64) % 4 = c / 64 :=
      groupMod 4 (b % 16) (c / 64) (by omega)
    simp only [btoa, atob, e1, e2, e3, e4,
      if_neg (encodeC_ne_pad (b % 16 * 4 + c / 64) (by omega)),
      if_neg (encodeC_ne_pad (c % 64) (by omega)),
      d2, m2, d3, m3, ih, List.cons.injEq, and_true]
    refine ⟨by omega, by omega, by omega⟩

theorem natToBytes_lt : ∀ k s, ∀ b ∈ natToBytes k s, b < 256 := by
  intro k
  induction k with
  | zero => intro s b hb; simp [natToBytes] at hb
  | succ n ih =>
    intro s b hb
    simp only [natToBytes, List.mem_cons] at hb
    rcases hb with h | h
    · omega
    · exact ih _ b h

theorem natToBytes_length (k s : Nat) : (natToBytes k s).length = k := by
  induction k generalizing s with
  | zero => rfl
  | succ n ih => simp [natToBytes, ih]

theorem natToBytes_injOn : ∀ k s t, s < 256 ^ k → t < 256 ^ k →
    natToBytes k s = natToBytes k t → s = t := by
  intro k
  induction k with
  | zero => intro s t hs ht _; simp [pow_zero] at hs ht; omega
  | succ n ih =>
    intro s t hs ht heq
    simp only [natToBytes, List.cons.injEq] at heq
    have h1 : s / 256 = t / 256 := by
      refine ih _ _ ?_ ?_ heq.2
      · have : 256 ^ (n + 1) = 256 ^ n * 256 := by ring
        omega
      · have : 256 ^ (n + 1) = 256 ^ n * 256 := by ring
        omega
    omega

theorem xor_pow2_ne (b j : Nat) : b ^^^ 2 ^ j ≠ b := by
  intro h
  have h2 : b ^^^ (b ^^^ 2 ^ j) = b ^^^ b := by rw [h]
  rw [← Nat.xor_assoc, Nat.xor_self, Nat.zero_xor] at h2
  have : 0 < 2 ^ j := Nat.pow_pos (by norm_num)
  omega

theorem xor_pow2_lt (b j : Nat) (hb : b < 256) (hj : j < 8) :
    b ^^^ 2 ^ j < 256 := by
  have h1 : b < 2 ^ 8 := hb
  have h2 : 2 ^ j < 2 ^ 8 := Nat.pow_lt_pow_right (by norm_num) hj
  exact Nat.xor_lt_two_pow h1 h2

theorem flipBit_lt (l : List Nat) (i j : Nat) (hl : ∀ b ∈ l, b < 256)
    (hi : i < l.length) (hj : j < 8) : ∀ b ∈ flipBit l i j, b < 256 := by
  intro b hb
  rcases List.mem_or_eq_of_mem_set hb with h | h
  · exact hl b h
  · subst h
    refine xor_pow2_lt _ _ ?_ hj
    rw [List.getD_eq_getElem l 0 hi]
    exact hl _ (List.getElem_mem hi)

theorem flipBit_ne (l : List Nat) (i j : Nat) (hi : i < l.length) :
    flipBit l i j ≠ l := by
  intro h
  have h1 : (flipBit l i j)[i]? = l[i]? := by rw [h]
  rw [flipBit, List.getElem?_set_self hi, List.getElem?_eq_getElem hi,
      List.getD_eq_getElem l 0 hi] at h1
  exact xor_pow2_ne l[i] j (Option.some.inj h1)

/-! ## Claim theorems -/

/-- Success of decryption right after encryption under the same key
(`decryptMessage ∘ encryptMessage`), at the byte level. -/
theorem decryptMessage_encryptMessage (pt : List Nat) (key rs : Nat)
    (hpt : ∀ b ∈ pt, b < 256) :
    decryptMessage ((encryptMessage pt key rs).1).ciphertext
      ((encryptMessage pt key rs).1).tag
      ((encryptMessage pt key rs).1).iv key = .ok pt := by
  simp only [encryptMessage, randomBytes, aeadEncrypt, decryptMessage,
    aeadDecrypt, atob_btoa pt hpt, atob_btoa _ (natToBytes_lt 12 rs)]
  simp

/-- C2: for every plaintext `P` and every peer with an established channel,
decrypting the `(ciphertext, iv)` pair (plus its authentication tag)
produced by `encryptFor` under that channel's key returns exactly `P`:
`decryptFrom(peer, encryptFor(peer, P)) == P`. -/
theorem encryptFor_decryptFrom_roundtrip (km : KeyManager) (peer : String)
    (P : List Nat) (rs k : Nat)
    (hch : km.sharedKeys.lookup peer = some k)
    (hP : ∀ b ∈ P, b < 256) :
    ∃ e rs', km.encryptFor peer P rs = .ok (e, rs') ∧
      km.decryptFrom peer e.ciphertext e.tag e.iv = .ok P := by
  refine ⟨(encryptMessage P k rs).1, (encryptMessage P k rs).2, ?_, ?_⟩
  · simp [KeyManager.encryptFor, hch]
  · simp only [KeyManager.decryptFrom, hch]
    exact decryptMessage_encryptMessage P k rs hP

/-- Witness for the round-trip theorem: a concrete key manager with a
channel for `"bob"` and the plaintext bytes of `"hi"`. -/
theorem encryptFor_decryptFrom_roundtrip_witness :
    ∃ e rs',
      (KeyManager.mk (some (1, 2)) [("bob", 7)]).encryptFor "bob"
        [104, 105] 0 = .ok (e, rs') ∧
      (KeyManager.mk (some (1, 2)) [("bob", 7)]).decryptFrom "bob"
        e.ciphertext e.tag e.iv = .ok [104, 105] :=
  encryptFor_decryptFrom_roundtrip (KeyManager.mk (some (1, 2)) [("bob", 7)])
    "bob" [104, 105] 0 7 (by decide) (by decide)

/-- C3: for every valid ciphertext produced under an established channel,
flipping any single bit of the ciphertext body makes `decryptFrom` fail with
the decryption-failure error, and so does any altered authentication tag;
`decryptFrom` never returns altered plaintext. -/
theorem decryptFrom_tamper_detect (km : KeyManager) (peer : String)
    (P : List Nat) (rs k rs' : Nat) (e : EncryptedMessage)
    (i j : Nat) (tag' : AuthTag)
    (hch : km.sharedKeys.lookup peer = some k)
    (hP : ∀ b ∈ P, b < 256)
    (henc : km.encryptFor peer P rs = .ok (e, rs'))
    (hi : i < (atob e.ciphertext).length) (hj : j < 8)
    (htag : tag' ≠ e.tag) :
    km.decryptFrom peer (btoa (flipBit (atob e.ciphertext) i j)) e.tag e.iv
        = .error .DecryptionFailure ∧
    km.decryptFrom peer e.ciphertext tag' e.iv
        = .error .DecryptionFailure := by
  simp only [KeyManager.encryptFor, hch, encryptMessage, randomBytes,
    aeadEncrypt, Except.ok.injEq, Prod.mk.injEq] at henc
  obtain ⟨he, _⟩ := henc
  subst he
  have hPb : atob (btoa P) = P := atob_btoa P hP
  simp only [hPb] at hi
  have hivb : atob (btoa (natToBytes 12 rs)) = natToBytes 12 rs :=
    atob_btoa _ (natToBytes_lt 12 rs)
  constructor
  · simp only [KeyManager.decryptFrom, hch, decryptMessage, hPb, hivb,
      atob_btoa _ (flipBit_lt P i j hP hi hj), aeadDecrypt]
    rw [if_neg]
    intro hcon
    simp only [AuthTag.mk.injEq] at hcon
    exact flipBit_ne P i j hi hcon.2.2.symm
  · simp only [KeyManager.decryptFrom, hch, decryptMessage, hPb, hivb,
      aeadDecrypt]
    rw [if_neg]
    exact htag

/-- Witness for the tamper-detection theorem: concrete channel, plaintext
`[104]`, bit 0 of ciphertext byte 0 flipped, and a concrete wrong tag. -/
theorem decryptFrom_tamper_detect_witness :
    (KeyManager.mk (some (1, 2)) [("bob", 7)]).decryptFrom "bob"
        (btoa (flipBit (atob ((encryptMessage [104] 7 0).1).ciphertext) 0 0))
        ((encryptMessage [104] 7 0).1).tag
        ((encryptMessage [104] 7 0).1).iv = .error .DecryptionFailure ∧
    (KeyManager.mk (some (1, 2)) [("bob", 7)]).decryptFrom "bob"
        ((encryptMessage [104] 7 0).1).ciphertext (AuthTag.mk 0 [] [])
        ((encryptMessage [104] 7 0).1).iv = .error .DecryptionFailure :=
  decryptFrom_tamper_detect (KeyManager.mk (some (1, 2)) [("bob", 7)])
    "bob" [104] 0 7 (encryptMessage [104] 7 0).2 (encryptMessage [104] 7 0).1
    0 0 (AuthTag.mk 0 [] []) (by decide) (by decide) rfl (by decide)
    (by decide) (by decide)

/-- Characterization of sequential `encryptFor` calls: they succeed and
produce exactly the IVs drawn from successive random-source states. -/
theorem encryptForSeq_ok (km : KeyManager) (peer : String) (k : Nat)
    (hch : km.sharedKeys.lookup peer = some k) :
    ∀ (pts : List (List Nat)) (rs : Nat),
      ∃ msgs, km.encryptForSeq peer pts rs = .ok (msgs, rs + pts.length) ∧
        msgs.map (fun e => e.iv)
          = (List.range pts.length).map (fun t => btoa (natToBytes 12 (rs + t)))
  | [], rs => ⟨[], by simp [KeyManager.encryptForSeq]⟩
  | p :: rest, rs => by
    obtain ⟨msgs, hseq, hmap⟩ := encryptForSeq_ok km peer k hch rest (rs + 1)
    refine ⟨(encryptMessage p k rs).1 :: msgs, ?_, ?_⟩
    · simp only [KeyManager.encryptForSeq, KeyManager.encryptFor, hch,
        encryptMessage, randomBytes, List.length_cons]
      rw [hseq]
      rw [show rs + 1 + rest.length = rs + (rest.length + 1) from by omega]
    · rw [List.map_cons, hmap, List.length_cons, List.range_succ_eq_map,
        List.map_cons, List.map_map]
      congr 1
      apply List.map_congr_left
      intro t ht
      simp only [Function.comp_apply]
      exact congrArg (fun n => btoa (natToBytes 12 n)) (by omega)

/-- C4: `encryptFor` draws a fresh random 96-bit IV on every call, so `N`
sequential `encryptFor` calls on one channel produce `N` pairwise-distinct
IVs (as long as the idealized 96-bit counter does not wrap). -/
theorem encryptFor_nonce_unique (km : KeyManager) (peer : String)
    (pts : List (List Nat)) (rs k : Nat)
    (hch : km.sharedKeys.lookup peer = some k)
    (hbound : rs + pts.length ≤ 256 ^ 12) :
    ∃ msgs, km.encryptForSeq peer pts rs = .ok (msgs, rs + pts.length) ∧
      msgs.length = pts.length ∧ (msgs.map (fun e => e.iv)).Nodup := by
  obtain ⟨msgs, hseq, hmap⟩ := encryptForSeq_ok km peer k hch pts rs
  refine ⟨msgs, hseq, ?_, ?_⟩
  · have hlen := congrArg List.length hmap
    simpa using hlen
  · rw [hmap]
    refine List.Nodup.map_on ?_ (List.nodup_range _)
    intro t1 h1 t2 h2 heq
    simp only [List.mem_range] at h1 h2
    have e1 : natToBytes 12 (rs + t1) = natToBytes 12 (rs + t2) := by
      have h3 := congrArg atob heq
      rwa [atob_btoa _ (natToBytes_lt _ _), atob_btoa _ (natToBytes_lt _ _)]
        at h3
    have := natToBytes_injOn 12 (rs + t1) (rs + t2) (by omega) (by omega) e1
    omega

/-- Witness for nonce uniqueness: three sequential calls on a concrete
channel yield three messages with pairwise-distinct IVs. -/
theorem encryptFor_nonce_unique_witness :
    ∃ msgs, (KeyManager.mk (some (1, 2)) [("bob", 7)]).encryptForSeq "bob"
        [[1], [2], [3]] 0 = .ok (msgs, 3) ∧
      msgs.length = 3 ∧ (msgs.map (fun e => e.iv)).Nodup :=
  encryptFor_nonce_unique (KeyManager.mk (some (1, 2)) [("bob", 7)]) "bob"
    [[1], [2], [3]] 0 7 (by decide) (by norm_num)

/-- Keys derived from different passwords (same salt) differ, by injectivity
of the idealized password-based KDF. -/
theorem deriveKey_ne_of_password_ne (pw pw' : Nat) (s : List Nat)
    (hne : pw' ≠ pw) :
    deriveKeyFromPassword pw s ≠ deriveKeyFromPassword pw' s := by
  intro hcon
  rw [deriveKeyFromPassword, deriveKeyFromPassword] at hcon
  exact hne (Nat.pair_eq_pair.mp hcon).1.symm

/-- C5: re-initializing an existing vault (`isNewIdentity = false`) with an
incorrect password fails with the wrong-password error and leaves no master
key resident and the vault not initialized, so a subsequent `getKeys` fails
with the not-initialized error. -/
theorem vault_wrong_password (st : SecureStorage) (store : Store)
    (pw pw' rs rs0 : Nat) (s : List Nat)
    (hne : pw' ≠ pw)
    (hsalt : storeGet store saltStorageKey = some (.raw s))
    (hverif : storeGet store verificationStorageKey
      = some (encryptForStorage verificationTokenBytes
          (deriveKeyFromPassword pw s) rs0).1) :
    st.initializeStorage pw' false store rs
        = (.error .WrongPassword,
           SecureStorage.mk none (some s) false, store, rs) ∧
    SecureStorage.getKeys (SecureStorage.mk none (some s) false) store
        = .error .NotInitialized := by
  have hkey := deriveKey_ne_of_password_ne pw pw' s hne
  constructor
  · simp only [SecureStorage.initializeStorage, Bool.false_eq_true, if_false,
      hsalt, hverif, VaultValue.bytes, encryptForStorage, randomBytes,
      aeadEncrypt, decryptFromStorage, aeadDecrypt, AuthTag.mk.injEq]
    rw [if_neg]
    intro hcon
    exact hkey hcon.1
  · rfl

/-- Witness for the wrong-password theorem: a vault whose salt is `[0]` and
whose verification marker was encrypted under the key for password `0`,
re-initialized with password `1`. -/
theorem vault_wrong_password_witness :
    (SecureStorage.mk none none false).initializeStorage 1 false
        [(saltStorageKey, VaultValue.raw [0]),
         (verificationStorageKey,
          (encryptForStorage verificationTokenBytes
            (deriveKeyFromPassword 0 [0]) 0).1)] 5
      = (.error .WrongPassword,
         SecureStorage.mk none (some [0]) false,
         [(saltStorageKey, VaultValue.raw [0]),
          (verificationStorageKey,
           (encryptForStorage verificationTokenBytes
             (deriveKeyFromPassword 0 [0]) 0).1)], 5) ∧
    SecureStorage.getKeys (SecureStorage.mk none (some [0]) false)
        [(saltStorageKey, VaultValue.raw [0]),
         (verificationStorageKey,
          (encryptForStorage verificationTokenBytes
            (deriveKeyFromPassword 0 [0]) 0).1)]
      = .error .NotInitialized :=
  vault_wrong_password (SecureStorage.mk none none false) _ 0 1 5 0 [0]
    (by decide) (by decide) (by decide)

/-- C10: when the stored salt exists but the password-verification marker is
absent, `initialize` with `isNewIdentity = false` succeeds for every
password: the check is silently skipped and the vault ends up unlocked with
the master key derived from the unverified password. -/
theorem vault_marker_absent_accepts_any_password (st : SecureStorage)
    (store : Store) (pw rs : Nat) (s : List Nat)
    (hsalt : storeGet store saltStorageKey = some (.raw s))
    (hverif : storeGet store verificationStorageKey = none) :
    st.initializeStorage pw false store rs
      = (.ok (),
         SecureStorage.mk (some (deriveKeyFromPassword pw s)) (some s) true,
         store, rs) := by
  simp only [SecureStorage.initializeStorage, Bool.false_eq_true, if_false,
    hsalt, hverif, VaultValue.bytes]

/-- Witness for the marker-absent theorem: a store holding only a salt
record, initialized with the arbitrary password `42`. -/
theorem vault_marker_absent_accepts_any_password_witness :
    (SecureStorage.mk none none false).initializeStorage 42 false
        [(saltStorageKey, VaultValue.raw [0])] 9
      = (.ok (),
         SecureStorage.mk (some (deriveKeyFromPassword 42 [0])) (some [0])
           true,
         [(saltStorageKey, VaultValue.raw [0])], 9) :=
  vault_marker_absent_accepts_any_password (SecureStorage.mk none none false)
    _ 42 9 [0] (by decide) (by decide)

/-- C9 counterexample: after `lock()` the salt is still resident in memory —
at a concrete unlocked vault with salt `[1, 2]`, `lock` leaves
`salt = some [1, 2]`, contradicting the claim that the salt is no longer
resident. -/
theorem lock_salt_still_resident :
    (SecureStorage.lock (SecureStorage.mk (some 5) (some [1, 2]) true)).salt
      ≠ none := by decide

/-- C9 (amended): after `lock()`, the master key is no longer resident and
the vault reports not initialized, and `lock` performs no store operation
(it does not touch persisted records); the salt, however, remains resident
in memory — only `clear()` discards it. -/
theorem lock_clears_master_key (st : SecureStorage) :
    (st.lock).masterKey = none ∧ (st.lock).initialized = false ∧
    (st.lock).salt = st.salt := by
  simp [SecureStorage.lock]

/-- C1: evaluation of `updateMessageStatus` at the failing input.  Applying
`read` after `delivered` leaves `read` (first half of the claim), but then
re-applying `delivered` blindly overwrites the status back to
`"delivered"` — the update is not a compare-and-set, so the status
regresses, contradicting the monotonicity claim (and the spec's explicit
compare-and-set requirement). -/
theorem updateMessageStatus_regresses :
    (updateMessageStatus "m1" "read" "bob" 2
        (updateMessageStatus "m1" "delivered" "bob" 1
          [DBMessage.mk "m1" "c1" "alice" (some "bob") "ct" "iv" "sent"
            false false none none none none])).map (fun m => m.status)
      = ["read"] ∧
    (updateMessageStatus "m1" "delivered" "bob" 3
        (updateMessageStatus "m1" "read" "bob" 2
          (updateMessageStatus "m1" "delivered" "bob" 1
            [DBMessage.mk "m1" "c1" "alice" (some "bob") "ct" "iv" "sent"
              false false none none none none]))).map (fun m => m.status)
      = ["delivered"] := by decide

/-- C8: server-side `editMessage` and `deleteMessage` succeed only when the
caller is the message's original sender; for any other caller, or a
nonexistent message, they fail with the not-found-or-unauthorized error and
leave the database unchanged; editing an already-deleted message is
rejected with the cannot-edit-deleted error, also without mutation. -/
theorem edit_delete_sender_only (db : DB) (mid caller ct ivVal : String)
    (now : Nat) :
    (db.find? (fun x => x.id == mid) = none →
      editMessage mid caller ct ivVal now db
          = (.error .NotFoundOrUnauthorized, db) ∧
      deleteMessage mid caller now db
          = (.error .NotFoundOrUnauthorized, db)) ∧
    (∀ m, db.find? (fun x => x.id == mid) = some m → m.senderId ≠ caller →
      editMessage mid caller ct ivVal now db
          = (.error .NotFoundOrUnauthorized, db) ∧
      deleteMessage mid caller now db
          = (.error .NotFoundOrUnauthorized, db)) ∧
    (∀ m, db.find? (fun x => x.id == mid) = some m → m.senderId = caller →
      m.isDeleted = true →
      editMessage mid caller ct ivVal now db
          = (.error .CannotEditDeleted, db)) ∧
    (∀ m, db.find? (fun x => x.id == mid) = some m → m.senderId = caller →
      (deleteMessage mid caller now db).1 = .ok ()) ∧
    (∀ m, db.find? (fun x => x.id == mid) = some m → m.senderId = caller →
      m.isDeleted = false →
      (editMessage mid caller ct ivVal now db).1 = .ok ()) := by
  refine ⟨?_, ?_, ?_, ?_, ?_⟩
  · intro h
    constructor
    · simp [editMessage, h]
    · simp [deleteMessage, h]
  · intro m hf hs
    constructor
    · simp [editMessage, hf, hs]
    · simp [deleteMessage, hf, hs]
  · intro m hf hs hd
    simp [editMessage, hf, hs, hd]
  · intro m hf hs
    simp [deleteMessage, hf, hs]
  · intro m hf hs hd
    simp [editMessage, hf, hs, hd]

/-- Witness for the edit/delete authorization theorem: caller `"bob"` is
not the sender (`"alice"`) of message `"m1"`, so both operations are
rejected and the database is returned unchanged. -/
theorem edit_delete_sender_only_witness :
    editMessage "m1" "bob" "ct2" "iv2" 7
        [DBMessage.mk "m1" "c1" "alice" (some "bob") "ct" "iv" "sent"
          false false none none none none]
      = (.error .NotFoundOrUnauthorized,
         [DBMessage.mk "m1" "c1" "alice" (some "bob") "ct" "iv" "sent"
           false false none none none none]) ∧
    deleteMessage "m1" "bob" 7
        [DBMessage.mk "m1" "c1" "alice" (some "bob") "ct" "iv" "sent"
          false false none none none none]
      = (.error .NotFoundOrUnauthorized,
         [DBMessage.mk "m1" "c1" "alice" (some "bob") "ct" "iv" "sent"
           false false none none none none]) :=
  (edit_delete_sender_only
      [DBMessage.mk "m1" "c1" "alice" (some "bob") "ct" "iv" "sent"
        false false none none none none] "m1" "bob" "ct2" "iv2" 7).2.1
    (DBMessage.mk "m1" "c1" "alice" (some "bob") "ct" "iv" "sent"
      false false none none none none) (by decide) (by decide)

/-- The flush loop empties the queue onto the wire in order. -/
theorem flushLoop_spec : ∀ (q w : List QueuedMessage),
    flushLoop q w = ([], w ++ q)
  | [], w => by simp [flushLoop]
  | m :: rest, w => by
    rw [flushLoop, flushLoop_spec rest (w ++ [m])]
    simp

/-- A disconnected run of `sendSeq` succeeds, leaves the wire untouched and
appends exactly the `buildMsgs` entries to the queue, consuming two random
draws (UUID and IV) per call. -/
theorem sendSeq_disconnected :
    ∀ (reqs : List (String × List Nat × String)) (c : SocketClient)
      (now rs : Nat), c.isConnected = false →
      (∀ r ∈ reqs, (c.keyManager.sharedKeys.lookup r.1).isSome) →
      c.sendSeq reqs now rs
        = .ok ({ c with messageQueue :=
                   c.messageQueue ++ buildMsgs c.keyManager reqs now rs },
               rs + 2 * reqs.length)
  | [], c, now, rs, hc, _ => by
    simp [SocketClient.sendSeq, buildMsgs]
  | (rid, content, chat) :: rest, c, now, rs, hc, hch => by
    obtain ⟨k, hk⟩ : ∃ k, c.keyManager.sharedKeys.lookup rid = some k := by
      have h1 := hch (rid, content, chat) (by simp)
      cases h2 : c.keyManager.sharedKeys.lookup rid with
      | none => rw [h2] at h1; simp at h1
      | some k => exact ⟨k, rfl⟩
    have ih := sendSeq_disconnected rest
      { c with messageQueue := c.messageQueue ++
          [⟨rid, chat, ((encryptMessage content k (rs + 1)).1).ciphertext,
            ((encryptMessage content k (rs + 1)).1).tag,
            ((encryptMessage content k (rs + 1)).1).iv, now, rs⟩] }
      now (rs + 2) hc (fun r hr => hch r (by simp [hr]))
    simp only [SocketClient.sendSeq, SocketClient.sendMessage,
      KeyManager.encryptFor, hk, hc, Bool.false_eq_true, if_false,
      encryptMessage, randomBytes] at ih ⊢
    rw [ih]
    simp only [buildMsgs, hk, List.length_cons, List.append_assoc,
      List.singleton_append, encryptMessage, randomBytes]
    rw [show rs + 2 + 2 * rest.length = rs + 2 * (rest.length + 1) from
      by omega]

/-- Queue entries correspond, in order, to the send requests. -/
theorem buildMsgs_pairs (km : KeyManager) :
    ∀ (reqs : List (String × List Nat × String)) (now rs : Nat),
      (∀ r ∈ reqs, (km.sharedKeys.lookup r.1).isSome) →
      (buildMsgs km reqs now rs).map (fun q => (q.recipientId, q.chatId))
        = reqs.map (fun r => (r.1, r.2.2))
  | [], now, rs, _ => by simp [buildMsgs]
  | (rid, content, chat) :: rest, now, rs, hch => by
    obtain ⟨k, hk⟩ : ∃ k, km.sharedKeys.lookup rid = some k := by
      have h1 := hch (rid, content, chat) (by simp)
      cases h2 : km.sharedKeys.lookup rid with
      | none => rw [h2] at h1; simp at h1
      | some k => exact ⟨k, rfl⟩
    simp only [buildMsgs, hk, List.map_cons]
    rw [buildMsgs_pairs km rest now (rs + 2) (fun r hr => hch r (by simp [hr]))]

/-- Every queue entry built from random state `rs` has `messageId ≥ rs`. -/
theorem buildMsgs_id_ge (km : KeyManager) :
    ∀ (reqs : List (String × List Nat × String)) (now rs : Nat),
      ∀ q ∈ buildMsgs km reqs now rs, rs ≤ q.messageId
  | [], now, rs => by simp [buildMsgs]
  | (rid, content, chat) :: rest, now, rs => by
    intro q hq
    cases hl : km.sharedKeys.lookup rid with
    | none => simp [buildMsgs, hl] at hq
    | some k =>
      simp only [buildMsgs, hl, List.mem_cons] at hq
      rcases hq with rfl | hq
      · exact Nat.le_refl rs
      · have := buildMsgs_id_ge km rest now (rs + 2) q hq
        omega

/-- The client-generated message ids of a built queue segment are pairwise
distinct (each call advances the random counter). -/
theorem buildMsgs_ids_nodup (km : KeyManager) :
    ∀ (reqs : List (String × List Nat × String)) (now rs : Nat),
      ((buildMsgs km reqs now rs).map (fun q => q.messageId)).Nodup
  | [], _, _ => by simp [buildMsgs]
  | (rid, content, chat) :: rest, now, rs => by
    cases hl : km.sharedKeys.lookup rid with
    | none => simp [buildMsgs, hl]
    | some k =>
      simp only [buildMsgs, hl, List.map_cons, List.nodup_cons]
      refine ⟨?_, buildMsgs_ids_nodup km rest now (rs + 2)⟩
      intro hmem
      obtain ⟨q, hq, hid⟩ := List.mem_map.mp hmem
      have := buildMsgs_id_ge km rest now (rs + 2) q hq
      omega

/-- C6: every `sendMessage` call made while disconnected appends one entry
to the outbound queue (in call order, with pairwise-distinct client message
ids, without transmitting anything), and a subsequent `connect` flushes the
queue so that each queued message is transmitted exactly once, in the
original enqueue order. -/
theorem offline_queue_fifo (c : SocketClient)
    (reqs : List (String × List Nat × String)) (now rs : Nat)
    (hc : c.isConnected = false)
    (hch : ∀ r ∈ reqs, (c.keyManager.sharedKeys.lookup r.1).isSome) :
    ∃ c', c.sendSeq reqs now rs = .ok (c', rs + 2 * reqs.length) ∧
      c'.messageQueue
        = c.messageQueue ++ buildMsgs c.keyManager reqs now rs ∧
      (buildMsgs c.keyManager reqs now rs).map
          (fun q => (q.recipientId, q.chatId))
        = reqs.map (fun r => (r.1, r.2.2)) ∧
      ((buildMsgs c.keyManager reqs now rs).map
          (fun q => q.messageId)).Nodup ∧
      c'.wire = c.wire ∧
      (c'.onConnect).messageQueue = [] ∧
      (c'.onConnect).wire
        = c.wire ++ c.messageQueue ++ buildMsgs c.keyManager reqs now rs := by
  refine ⟨_, sendSeq_disconnected reqs c now rs hc hch, rfl,
    buildMsgs_pairs c.keyManager reqs now rs hch,
    buildMsgs_ids_nodup c.keyManager reqs now rs, rfl, ?_, ?_⟩
  · simp [SocketClient.onConnect, SocketClient.flushMessageQueue,
      flushLoop_spec]
  · simp [SocketClient.onConnect, SocketClient.flushMessageQueue,
      flushLoop_spec, List.append_assoc]

/-- Witness for the offline-queue theorem: three sends to `"bob"` while
disconnected, then connect. -/
theorem offline_queue_fifo_witness :
    ∃ c', (SocketClient.mk (KeyManager.mk (some (1, 2)) [("bob", 7)])
        "alice" [] false []).sendSeq
          [("bob", [1], "c1"), ("bob", [2], "c1"), ("bob", [3], "c1")] 0 0
        = .ok (c', 6) ∧
      c'.messageQueue
        = [] ++ buildMsgs (KeyManager.mk (some (1, 2)) [("bob", 7)])
            [("bob", [1], "c1"), ("bob", [2], "c1"), ("bob", [3], "c1")]
            0 0 ∧
      (buildMsgs (KeyManager.mk (some (1, 2)) [("bob", 7)])
          [("bob", [1], "c1"), ("bob", [2], "c1"), ("bob", [3], "c1")]
          0 0).map (fun q => (q.recipientId, q.chatId))
        = [("bob", [1], "c1"), ("bob", [2], "c1"), ("bob", [3], "c1")].map
            (fun r => (r.1, r.2.2)) ∧
      ((buildMsgs (KeyManager.mk (some (1, 2)) [("bob", 7)])
          [("bob", [1], "c1"), ("bob", [2], "c1"), ("bob", [3], "c1")]
          0 0).map (fun q => q.messageId)).Nodup ∧
      c'.wire = [] ∧
      (c'.onConnect).messageQueue = [] ∧
      (c'.onConnect).wire
        = [] ++ [] ++ buildMsgs (KeyManager.mk (some (1, 2)) [("bob", 7)])
            [("bob", [1], "c1"), ("bob", [2], "c1"), ("bob", [3], "c1")]
            0 0 :=
  offline_queue_fifo
    (SocketClient.mk (KeyManager.mk (some (1, 2)) [("bob", 7)])
      "alice" [] false [])
    [("bob", [1], "c1"), ("bob", [2], "c1"), ("bob", [3], "c1")] 0 0
    rfl (by decide)

/-- C7 counterexample: a concrete client with no channel for `"bob"` whose
public-key response does not arrive during the fixed one-second delay.  The
wait elapses and the code proceeds into `socketClient.sendMessage` anyway,
which reaches `encryptFor` with no channel and fails with
`ChannelNotEstablished` — so the send proceeded after a mere fixed delay
while the channel had not actually been established, refuting the claim
that "the send proceeds only once the channel has actually been
established". -/
theorem ctx_fixed_wait_counterexample :
    (KeyManager.mk (some (1, 2)) []).hasChannel "bob" = false ∧
    ctxSendMessage
        (SocketClient.mk (KeyManager.mk (some (1, 2)) []) "alice" [] false
          []) "bob" [104] "c1" none 0 0
      = .error .ChannelNotEstablished := by
  constructor <;> rfl

/-- C7 (amended): when `sendMessage` is called for a recipient with no
established channel, it triggers a public-key request and then waits a
fixed one-second delay (not an establishment-gated wait): if the
public-key response was delivered and handled during that delay the send
proceeds on the newly established channel, otherwise the send proceeds
anyway and fails with `ChannelNotEstablished`. -/
theorem ctxSendMessage_fixed_delay (c : SocketClient) (recipientId : String)
    (content : List Nat) (chatId : String) (pub : Nat) (now rs : Nat)
    (priv pubSelf : Nat)
    (hno : c.keyManager.hasChannel recipientId = false)
    (hkp : c.keyManager.keyPair = some (priv, pubSelf)) :
    ctxSendMessage c recipientId content chatId none now rs
        = .error .ChannelNotEstablished ∧
    ∃ c' rs', ctxSendMessage c recipientId content chatId (some pub) now rs
        = .ok (rs, c', rs') := by
  have hlook : c.keyManager.sharedKeys.lookup recipientId = none := by
    cases h : c.keyManager.sharedKeys.lookup recipientId with
    | none => rfl
    | some k =>
      rw [KeyManager.hasChannel, h] at hno
      simp at hno
  constructor
  · simp [ctxSendMessage, hno, SocketClient.sendMessage,
      KeyManager.encryptFor, hlook]
  · simp only [ctxSendMessage, hno, Bool.false_eq_true, if_false,
      ctxHandlePublicKey, KeyManager.establishChannel, hkp,
      SocketClient.sendMessage, KeyManager.encryptFor, List.lookup]
    simp only [beq_self_eq_true, if_true]
    cases hcon : c.isConnected <;> simp

/-- Witness for the fixed-delay theorem at a concrete client: without a
response the send fails with `ChannelNotEstablished`; with a response
`(pub = 5)` processed during the delay it succeeds. -/
theorem ctxSendMessage_fixed_delay_witness :
    ctxSendMessage
        (SocketClient.mk (KeyManager.mk (some (1, 2)) []) "alice" [] false
          []) "bob" [104] "c1" none 0 0
      = .error .ChannelNotEstablished ∧
    ∃ c' rs', ctxSendMessage
        (SocketClient.mk (KeyManager.mk (some (1, 2)) []) "alice" [] false
          []) "bob" [104] "c1" (some 5) 0 0
      = .ok (0, c', rs') :=
  ctxSendMessage_fixed_delay
    (SocketClient.mk (KeyManager.mk (some (1, 2)) []) "alice" [] false [])
    "bob" [104] "c1" 5 0 0 1 2 (by decide) rfl

end Chat
